import Mathlib

/-!
Verification of the segregated-storage allocator family (yaga::sgs, yaga::pool,
yaga::opool) against its natural-language specification.

The C++ sources are shallowly embedded:
* machine addresses and sizes are `Nat` (64-bit pointers, `ptrSize = 8`);
* the standard C++ struct-layout rules (offsets rounded up to member
  alignment, total size rounded up to struct alignment) are spelled out as
  arithmetic on `Nat`;
* the allocator's mutable fields (`pageCount_`, `freeItems_`, `pagesHead_`)
  become a state record, and each member function becomes a state-passing
  function giving its single-threaded semantics (every lock-protected or
  CAS-retry section runs atomically and uninterrupted);
* the instrumented global `operator new` of the test harness (MemoryHelper)
  is modelled by the `sysAllocs` counter, incremented once per page
  allocation, and the memory provider hands out addresses from a bump
  pointer `nextBase`, aligned as `operator new(size, align_val_t)` promises;
* code that throws returns `Except String`; a C++ retry loop that could
  spin forever returns `Option`.

Statement order inside `addPage` / `allocate` (which the spec's temporal
claims are about) is embedded separately as explicit event traces.
-/

namespace SgsProof

/-- Pointer size, in bytes, on the 64-bit targets the library is built and
tested on (`sizeof(void*) == 8`). -/
def ptrSize : Nat := 8

/-- Round `n` up to the next multiple of `a`: the rounding C++ layout applies
to member offsets and struct sizes. -/
def alignUp (n a : Nat) : Nat := (n + a - 1) / a * a

/-- Alignment of `RawSegregatedStorageItem<Size, Alignment>`: the struct holds
an `Item* next` member (alignment `ptrSize`) and an `alignas(Alignment)` byte
array, so its alignment is the larger of the two.  Identical for
`ObjectPoolItem<T>` with `Alignment = alignof(T)`. -/
def itemAlign (A : Nat) : Nat := max ptrSize A

/-- `offsetof(Item, body)`: the `next` pointer occupies bytes `[0, ptrSize)`,
and `body` is placed at the next multiple of its `alignas(Alignment)`. -/
def itemBodyOffset (A : Nat) : Nat := alignUp ptrSize A

/-- `sizeof(RawSegregatedStorageItem<Size, Alignment>)`: the payload ends at
`itemBodyOffset A + Size`, and the struct size is rounded up to the struct
alignment. -/
def itemSizeof (S A : Nat) : Nat := alignUp (itemBodyOffset A + S) (itemAlign A)

/-- Compile-time configuration of `RawSegregatedStorage<Size, Alignment,
PageSize>` (raw_segregated_storage.h): chunk size, chunk alignment and the
`PageSize` template argument, all in bytes. -/
structure Cfg where
  size : Nat
  align : Nat
  pageSize : Nat
deriving DecidableEq

namespace Cfg

/-- `RawSegregatedStoragePage::itemSize = sizeof(Item)`. -/
def itemSize (c : Cfg) : Nat := itemSizeof c.size c.align

/-- `RawSegregatedStoragePage::itemCount = PageSize / itemSize`.  The source
guards `static_assert(itemCount > 0, "Page size must be large enough to fit
at least one item")`, so every configuration that compiles has
`itemCount > 0`. -/
def itemCount (c : Cfg) : Nat := c.pageSize / c.itemSize

/-- Alignment of `RawSegregatedStoragePage`: a `PagePtr nextPage_` member
followed by the `Item items_[itemCount]` array, so `max(ptrSize,
alignof(Item))`; since `alignof(Item) ≥ ptrSize` this equals
`alignof(Item)`. -/
def pageAlign (c : Cfg) : Nat := itemAlign c.align

/-- `offsetof(Page, items_)`: the `nextPage_` pointer followed by the item
array at its alignment. -/
def itemsOffset (c : Cfg) : Nat := alignUp ptrSize (itemAlign c.align)

/-- `sizeof(RawSegregatedStoragePage)`: header plus the item array, rounded
up to the page struct's alignment.  This is the byte count `new Page`
requests from the memory provider. -/
def pageSizeof (c : Cfg) : Nat :=
  alignUp (c.itemsOffset + c.itemCount * c.itemSize) c.pageAlign

end Cfg

/-- Mutable state of one `RawSegregatedStorage<Size, Alignment, PageSize>`:
`pageCount_`, `freeItems_` (the lock-free stack, head first, as the list of
item addresses), `pagesHead_` (page base addresses, newest first), plus the
modelled memory provider: `nextBase` is the next raw address it will carve
an allocation out of, and `sysAllocs` counts its `operator new` calls
(the test harness's MemoryHelper::allocationCount). -/
structure St where
  pageCount : Nat
  freeItems : List Nat
  pages : List Nat
  nextBase : Nat
  sysAllocs : Nat
deriving DecidableEq

namespace RawSegregatedStorage

/-- The constructor `RawSegregatedStorage() : pageCount_(0),
freeItems_(nullptr), pagesHead_(nullptr)`; the provider's bump pointer is an
arbitrary starting address. -/
def mkStorage (nextBase : Nat) : St :=
  { pageCount := 0, freeItems := [], pages := [], nextBase := nextBase, sysAllocs := 0 }

/-- The pre-linked chunk chain of a freshly constructed page at base address
`base`: the page constructor links `items_[i-1].next = &items_[i]` with
`items_[itemCount-1].next = nullptr`, so the chain runs through the item
array in ascending index order starting at `head() = &items_[0]`. -/
def pageChain (c : Cfg) (base : Nat) : List Nat :=
  (List.range c.itemCount).map (fun i => base + c.itemsOffset + i * c.itemSize)

/-- `RawSegregatedStorage::push(head, tail)`: CAS-push a pre-linked chain
onto the free-list (`tail->next = oldHead`, swing the head to `head`).
Single-threaded the CAS succeeds first try: the chain ends up in front. -/
def push (chain : List Nat) (s : St) : St :=
  { s with freeItems := chain ++ s.freeItems }

/-- `RawSegregatedStorage::addPage(oldPageCount)` (raw_segregated_storage.h,
compile-time page size): take the allocation mutex; if the page counter no
longer equals the caller's value return without touching anything; otherwise
allocate a page (`new Page(pagesHead_)` — one provider allocation of
`sizeof(Page)` bytes at a `alignof(Page)`-aligned address), prepend it to
the page list, push its pre-linked chain, and increment the counter. -/
def addPage (c : Cfg) (oldPageCount : Nat) (s : St) : St :=
  if oldPageCount ≠ s.pageCount then s
  else
    let base := alignUp s.nextBase c.pageAlign
    { pageCount := s.pageCount + 1
      freeItems := pageChain c base ++ s.freeItems
      pages := base :: s.pages
      nextBase := base + c.pageSizeof
      sysAllocs := s.sysAllocs + 1 }

/-- `RawSegregatedStorage::allocate()`, single-threaded semantics of the
counter-gated pop loop: read the page counter, read the head; if the head is
null call `addPage` with the counter value just read and re-read both; pop
the head (the CAS cannot fail without concurrency) and return its `body`
address.  If even the grown free-list is empty (impossible for the
configurations that pass the source's static_assert) the C++ loop would
grow again forever; that is `none`. -/
def allocate (c : Cfg) (s : St) : Option (Nat × St) :=
  match s.freeItems with
  | a :: rest => some (a + itemBodyOffset c.align, { s with freeItems := rest })
  | [] =>
    let s' := addPage c s.pageCount s
    match s'.freeItems with
    | a :: rest => some (a + itemBodyOffset c.align, { s' with freeItems := rest })
    | [] => none

/-- `RawSegregatedStorage::free(ptr)`: step back from the body pointer to
the item (`ptr -= offsetof(Item, body)`) and CAS-push the single-item
chain. -/
def free (c : Cfg) (ptr : Nat) (s : St) : St :=
  { s with freeItems := (ptr - itemBodyOffset c.align) :: s.freeItems }

/-- `n` consecutive single-threaded `allocate()` calls, returning the list
of handed-out body addresses in call order. -/
def allocN (c : Cfg) : Nat → St → Option (List Nat × St)
  | 0, s => some ([], s)
  | n + 1, s =>
    match allocate c s with
    | none => none
    | some (a, s') =>
      match allocN c n s' with
      | none => none
      | some (as, s'') => some (a :: as, s'')

/-- `free` each pointer of a list, in list order. -/
def freeAll (c : Cfg) (ptrs : List Nat) (s : St) : St :=
  ptrs.foldl (fun t p => free c p t) s

end RawSegregatedStorage

/-! ## The runtime-sized variant

segregated_multi_storage.h also carries a `RawSegregatedStorage<Size,
Alignment>` whose page size is a constructor argument (`pageSize_`), whose
page layout is `{ Page* nextPage_; Item items_; }` with the remaining items
carved out of the same `operator new(pageSize, align_val_t(alignof(Page)))`
block, and whose `addPage` doubles `pageSize_` after each growth.  Its
`Page::allocate` throws `std::runtime_error("Page size must be large enough
to fit at least one item")` when the requested page size cannot hold the
header. -/

/-- Chunk size/alignment configuration of the runtime-sized
`RawSegregatedStorage<Size, Alignment>`. -/
structure CfgRT where
  size : Nat
  align : Nat
deriving DecidableEq

namespace CfgRT

/-- `sizeof(Item)` for the runtime-sized variant (same item struct). -/
def itemSize (c : CfgRT) : Nat := itemSizeof c.size c.align

/-- Alignment of the runtime-sized `RawSegregatedStoragePage`. -/
def pageAlign (c : CfgRT) : Nat := itemAlign c.align

/-- `offsetof(Page, items_)` for the runtime-sized page header. -/
def itemsOffset (c : CfgRT) : Nat := alignUp ptrSize (itemAlign c.align)

/-- `sizeof(RawSegregatedStoragePage)` for the runtime-sized variant: the
`nextPage_` pointer plus one inline `Item items_`, rounded up to the page
alignment. -/
def pageSizeof (c : CfgRT) : Nat :=
  alignUp (c.itemsOffset + c.itemSize) c.pageAlign

end CfgRT

/-- Mutable state of the runtime-sized `RawSegregatedStorage<Size,
Alignment>`: the fields of the compile-time variant plus the `pageSize_`
member that the constructor stores and `addPage` doubles. -/
structure StRT where
  pageSize : Nat
  pageCount : Nat
  freeItems : List Nat
  pages : List Nat
  nextBase : Nat
  sysAllocs : Nat
deriving DecidableEq

namespace RawSegregatedStorageRT

/-- The constructor `RawSegregatedStorage(size_t pageSize) :
pageSize_(pageSize), pageCount_(0), freeItems_(nullptr),
pageHead_(nullptr)`.  It stores the requested page size unexamined: no
validation happens at construction time. -/
def mkStorage (pageSize nextBase : Nat) : StRT :=
  { pageSize := pageSize, pageCount := 0, freeItems := [], pages := [],
    nextBase := nextBase, sysAllocs := 0 }

/-- `RawSegregatedStoragePage::allocate(pageSize, nextPage, head, tail)`:
throws when `pageSize < sizeof(Page)`; otherwise computes `itemCount =
(pageSize - sizeof(Page)) / sizeof(Item) + 1` (the `+ 1` being the item
inlined in the header), calls `operator new(pageSize,
align_val_t(alignof(Page)))` and pre-links the chain in ascending index
order.  Returns the chain of item addresses for a page based at `base`. -/
def pageAllocate (c : CfgRT) (pageSize base : Nat) : Except String (List Nat) :=
  if pageSize < c.pageSizeof then
    .error "Page size must be large enough to fit at least one item"
  else
    let itemsSize := pageSize - c.pageSizeof
    let itemCount := itemsSize / c.itemSize + 1
    .ok ((List.range itemCount).map (fun i => base + c.itemsOffset + i * c.itemSize))

/-- `RawSegregatedStorage::addPage(oldPageCount)` of the runtime-sized
variant: under the allocation mutex, return untouched if the counter moved;
otherwise allocate a page of `pageSize_` bytes (which may throw, in which
case the exception unwinds with no state committed), prepend it, push its
chain, double `pageSize_`, and increment the counter last. -/
def addPage (c : CfgRT) (oldPageCount : Nat) (s : StRT) : Except String StRT :=
  if oldPageCount ≠ s.pageCount then .ok s
  else
    let base := alignUp s.nextBase c.pageAlign
    match pageAllocate c s.pageSize base with
    | .error e => .error e
    | .ok chain =>
      .ok { pageSize := s.pageSize * 2
            pageCount := s.pageCount + 1
            freeItems := chain ++ s.freeItems
            pages := base :: s.pages
            nextBase := base + s.pageSize
            sysAllocs := s.sysAllocs + 1 }

/-- `RawSegregatedStorage::allocate()` of the runtime-sized variant,
single-threaded: pop the head if available, otherwise grow (propagating the
page-size exception to the caller) and pop.  `none` is the impossible
still-empty-after-growth spin. -/
def allocate (c : CfgRT) (s : StRT) : Option (Except String (Nat × StRT)) :=
  match s.freeItems with
  | a :: rest => some (.ok (a + itemBodyOffset c.align, { s with freeItems := rest }))
  | [] =>
    match addPage c s.pageCount s with
    | .error e => some (.error e)
    | .ok s' =>
      match s'.freeItems with
      | a :: rest => some (.ok (a + itemBodyOffset c.align, { s' with freeItems := rest }))
      | [] => none

end RawSegregatedStorageRT

/-! ## The typed layer

`SegregatedStorage<T>::allocate(Args&&...)` and
`SegregatedMultiStorage::allocate<T>(Args&&...)` wrap the raw chunk in a
placement `new`; both wrappers have the identical exception path:

    std::byte* bytePtr = storage->allocate();
    try { return ::new(bytePtr) T(args...); }
    catch (...) { storage->free(bytePtr); throw; }
-/

namespace SegregatedStorage

/-- The typed `allocate` over the raw fixed-page-size storage.  `ctorOk`
says whether the in-place constructor of `T` completes or throws; on a
throw the chunk is freed back and the exception (`Except.error`) propagates
to the caller. -/
def allocate (c : Cfg) (ctorOk : Bool) (s : St) : Option (Except Unit Nat × St) :=
  match RawSegregatedStorage.allocate c s with
  | none => none
  | some (bytePtr, s') =>
    if ctorOk then some (.ok bytePtr, s')
    else some (.error (), RawSegregatedStorage.free c bytePtr s')

/-- The available-chunk count of a pool: the length of its free-list. -/
def availableCount (s : St) : Nat := s.freeItems.length

end SegregatedStorage

/-! ## Statement-order traces

The spec's temporal claims are about the order of the atomic operations in
`allocate`/`addPage`, not about the resulting state.  The growth path of
each `addPage` overload is a straight-line statement sequence, embedded
here as a literal event list in source statement order; `allocate` records
the events its single-threaded control flow passes through. -/

/-- The observable operations of a page-growth section. -/
inductive GrowEv
  | lockAcquire
  | pageCountCheck
  | pageCountIncrement
  | pageCreate
  | pageListLink
  | freeListPush
  | lockRelease
deriving DecidableEq, BEq

/-- Statement order of `RawSegregatedStorage::addPage` on the growth path —
identical in the compile-time-sized variant (`pagesHead_ = new
Page(pagesHead_); push(head, tail); ++pageCount_;`) and the runtime-sized
variant (`pageHead_ = Page::allocate(...); push(head, tail); pageSize_ *= 2;
++pageCount_;`): create and link the page, merge its chain, increment the
counter last. -/
def addPageOrderRawSegregatedStorage : List GrowEv :=
  [.lockAcquire, .pageCountCheck, .pageCreate, .pageListLink, .freeListPush,
   .pageCountIncrement, .lockRelease]

/-- Statement order of `ObjectPool::addPage` on the growth path — identical
in src/object_pool.h (`++pageCount_; pages_.push_front(make_unique<Page>());
push(front->head(), front->tail());`) and
src/include/object_pool/object_pool.h (same with `push_back`): the counter
is incremented first, before the page exists or its chain is merged. -/
def addPageOrderObjectPool : List GrowEv :=
  [.lockAcquire, .pageCountCheck, .pageCountIncrement, .pageCreate,
   .pageListLink, .freeListPush, .lockRelease]

/-- The atomic accesses `allocate()` makes to the page counter and the
free-list head. -/
inductive AllocEv
  | loadPageCount
  | loadFreeHead
  | addPageCall
  | casFreeHead
deriving DecidableEq, BEq

/-- The event trace of one single-threaded `allocate()` call of
`RawSegregatedStorage` (both variants share the loop, as does
`ObjectPool::pop` of the counter-gated object pools): load the page
counter, load the head; if the head was null, call `addPage` and re-load
counter then head; finish with the successful CAS pop. -/
def allocateTrace (c : Cfg) (s : St) : List AllocEv :=
  match s.freeItems with
  | _ :: _ => [.loadPageCount, .loadFreeHead, .casFreeHead]
  | [] =>
    match (RawSegregatedStorage.addPage c s.pageCount s).freeItems with
    | _ :: _ => [.loadPageCount, .loadFreeHead, .addPageCall,
                 .loadPageCount, .loadFreeHead, .casFreeHead]
    | [] => [.loadPageCount, .loadFreeHead, .addPageCall,
             .loadPageCount, .loadFreeHead]

/-- Checker for the required read order: walking the trace with a flag that
says «a fresh page-counter load is required before the free-list head may
be inspected», set at the start and again after every `addPage` return; a
head load while the flag is set is a violation. -/
def chkCounterFirst : Bool → List AllocEv → Bool
  | _, [] => true
  | _, .loadPageCount :: r => chkCounterFirst false r
  | need, .loadFreeHead :: r => if need then false else chkCounterFirst need r
  | _, .addPageCall :: r => chkCounterFirst true r
  | need, .casFreeHead :: r => chkCounterFirst need r

/-- A trace reads the page counter strictly before it first inspects the
free-list head, and again re-reads the counter before the head after every
page growth. -/
def counterReadBeforeHead (t : List AllocEv) : Bool := chkCounterFirst true t

/-! ## The multi-type registry

`SegregatedMultiStorage` maps `(sizeof(T), alignof(T))` to an owned raw
storage in an `unordered_map` guarded by a `shared_mutex`: `findStorage`
looks the key up under a shared lock, `createStorage` inserts under the
exclusive lock with `storage_.emplace(key, make_unique<Storage>())`, whose
semantics insert only if the key is absent and otherwise return the
existing entry untouched.  Each lock-protected section is atomic, so any
concurrent history is a sequence of these atomic actions; `findStorage`
never mutates, so the reachable registry states are exactly the folds of
`createStorage` over key sequences.  An allocator is identified by its
creation index. -/

/-- A registry key: `(sizeof(T), alignof(T))`. -/
abbrev RegKey := Nat × Nat

namespace SegregatedMultiStorage

/-- `findStorage<T>`: look the key up under the shared lock; `nullptr`
(`none`) on a miss. -/
def findStorage : List (RegKey × Nat) → RegKey → Option Nat
  | [], _ => none
  | e :: m, k => if e.1 = k then some e.2 else findStorage m k

/-- `createStorage<T>`: under the exclusive lock, `emplace` a freshly
constructed storage — inserting only if the key is still absent, otherwise
keeping the existing entry. -/
def createStorage (m : List (RegKey × Nat)) (k : RegKey) : List (RegKey × Nat) :=
  match findStorage m k with
  | some _ => m
  | none => m ++ [(k, m.length)]

/-- The registry state after an arbitrary interleaving of storage-creating
sections for the keys `ks` (in that order), starting from the empty
registry of a freshly constructed `SegregatedMultiStorage`. -/
def runRegistry (ks : List RegKey) : List (RegKey × Nat) :=
  ks.foldl createStorage []

end SegregatedMultiStorage

/-! ## Helper lemmas -/

/-- `alignUp n a` is a multiple of `a`. -/
lemma alignUp_dvd (n a : Nat) : a ∣ alignUp n a :=
  dvd_mul_left a ((n + a - 1) / a)

/-- Rounding up never rounds down. -/
lemma le_alignUp (n a : Nat) (ha : 0 < a) : n ≤ alignUp n a := by
  unfold alignUp
  cases n with
  | zero => exact Nat.zero_le _
  | succ m =>
    have h1 : m + 1 + a - 1 = m + a := by omega
    rw [h1, Nat.add_div_right m ha]
    have h3 := Nat.div_add_mod m a
    have h4 : m % a < a := Nat.mod_lt m ha
    have h5 : (m / a + 1) * a = a * (m / a) + a := by ring
    rw [h5]
    set t := a * (m / a) with ht
    omega

/-- A power of two divides the item alignment it induces
(`itemAlign A = max 8 A`, and `A` is a power of two in C++). -/
lemma pow2_dvd_itemAlign (k : Nat) : 2 ^ k ∣ itemAlign (2 ^ k) := by
  unfold itemAlign ptrSize
  rcases le_total (2 ^ k) 8 with h | h
  · rw [Nat.max_eq_left h]
    have hk : k ≤ 3 := by
      by_contra hk
      push_neg at hk
      have : 2 ^ 4 ≤ 2 ^ k := Nat.pow_le_pow_right (by norm_num) (by omega)
      omega
    have h8 : (8 : Nat) = 2 ^ 3 := by norm_num
    rw [h8]
    exact pow_dvd_pow 2 hk
  · rw [Nat.max_eq_right h]

/-- The item alignment is positive. -/
lemma itemAlign_pos (A : Nat) : 0 < itemAlign A := by
  unfold itemAlign ptrSize
  omega

/-- Every address in a freshly built page chain is a multiple of the item
alignment, because the page base, the item-array offset and the item stride
all are. -/
lemma pageChain_dvd (c : Cfg) (nb : Nat) :
    ∀ x ∈ RawSegregatedStorage.pageChain c (alignUp nb c.pageAlign),
      itemAlign c.align ∣ x := by
  intro x hx
  unfold RawSegregatedStorage.pageChain at hx
  rcases List.mem_map.mp hx with ⟨i, _, rfl⟩
  have hbase : itemAlign c.align ∣ alignUp nb c.pageAlign := by
    unfold Cfg.pageAlign
    exact alignUp_dvd nb _
  have hoff : itemAlign c.align ∣ c.itemsOffset := alignUp_dvd ptrSize _
  have hsz : itemAlign c.align ∣ c.itemSize := alignUp_dvd _ _
  exact Nat.dvd_add (Nat.dvd_add hbase hoff) (Dvd.dvd.mul_left hsz i)

/-! ## The claims -/

/-- Claim C8: a call to `addPage` that observes, after acquiring the
page-growth lock, a page counter different from the value the caller read,
returns without changing any allocator state — no page allocated or linked,
free-list head untouched, page counter not incremented.  Both the
compile-time-sized and the runtime-sized `RawSegregatedStorage::addPage`
guard every mutation behind `if (oldPageCount != pageCount_) return;`. -/
theorem addPage_stale_counter_noop (c : Cfg) (crt : CfgRT) (v : Nat)
    (s : St) (srt : StRT) (h1 : v ≠ s.pageCount) (h2 : v ≠ srt.pageCount) :
    RawSegregatedStorage.addPage c v s = s ∧
    RawSegregatedStorageRT.addPage crt v srt = .ok srt := by
  constructor
  · simp [RawSegregatedStorage.addPage, h1]
  · simp [RawSegregatedStorageRT.addPage, h2]

/-- Witness for C8 at a concrete stale counter value. -/
theorem addPage_stale_counter_noop_witness :
    (1 ≠ (RawSegregatedStorage.mkStorage 0).pageCount ∧
     1 ≠ (RawSegregatedStorageRT.mkStorage 48 0).pageCount) ∧
    (RawSegregatedStorage.addPage ⟨5, 1, 48⟩ 1 (RawSegregatedStorage.mkStorage 0) =
        RawSegregatedStorage.mkStorage 0 ∧
     RawSegregatedStorageRT.addPage ⟨5, 1⟩ 1 (RawSegregatedStorageRT.mkStorage 48 0) =
        .ok (RawSegregatedStorageRT.mkStorage 48 0)) :=
  ⟨⟨by decide, by decide⟩,
   addPage_stale_counter_noop ⟨5, 1, 48⟩ ⟨5, 1⟩ 1 (RawSegregatedStorage.mkStorage 0)
     (RawSegregatedStorageRT.mkStorage 48 0) (by decide) (by decide)⟩

/-- Claim C10: in a single-threaded execution, `free(p)` pushes `p`'s chunk
onto the head of the free-list and the next `allocate` pops that head, so an
`allocate` immediately following `free(p)` returns the very address `p` and
restores the state from before the `free` — in particular no page growth
happens (page count and provider-allocation count are those of `s`).  The
hypothesis says `p` is a body pointer, i.e. lies at or beyond the body
offset, as every pointer handed out by `allocate` does. -/
theorem free_then_allocate_lifo (c : Cfg) (s : St) (p : Nat)
    (h : itemBodyOffset c.align ≤ p) :
    RawSegregatedStorage.allocate c (RawSegregatedStorage.free c p s) = some (p, s) := by
  simp [RawSegregatedStorage.allocate, RawSegregatedStorage.free, Nat.sub_add_cancel h]

/-- Witness for C10 at a concrete pool state and pointer. -/
theorem free_then_allocate_lifo_witness :
    itemBodyOffset (Cfg.align ⟨5, 1, 48⟩) ≤ 16 ∧
    RawSegregatedStorage.allocate ⟨5, 1, 48⟩
        (RawSegregatedStorage.free ⟨5, 1, 48⟩ 16 (RawSegregatedStorage.mkStorage 0)) =
      some (16, RawSegregatedStorage.mkStorage 0) :=
  ⟨by decide, free_then_allocate_lifo ⟨5, 1, 48⟩ (RawSegregatedStorage.mkStorage 0) 16 (by decide)⟩

/-- Claim C5: `allocate` reads the page counter strictly before it first
inspects the free-list head, and after every page growth it re-reads the
counter before re-reading the head — the trace of every single-threaded
`allocate` call passes the counter-before-head checker. -/
theorem allocate_reads_counter_before_head (c : Cfg) (s : St) :
    counterReadBeforeHead (allocateTrace c s) = true := by
  unfold allocateTrace
  split
  · rfl
  · split
    · rfl
    · rfl

/-- Counterexample to claim C4 as stated: in `ObjectPool::addPage`
(src/object_pool.h and src/include/object_pool/object_pool.h) the page
counter is incremented before the new page is created, linked, or its chain
is pushed into the free-list — not last. -/
theorem objectPool_increment_before_push :
    addPageOrderObjectPool.indexOf GrowEv.pageCountIncrement <
      addPageOrderObjectPool.indexOf GrowEv.freeListPush ∧
    addPageOrderObjectPool.indexOf GrowEv.pageCountIncrement <
      addPageOrderObjectPool.indexOf GrowEv.pageCreate := by
  decide

/-- Claim C4 (amended): on the growth path of
`RawSegregatedStorage::addPage` (both variants) the page counter is indeed
incremented last — after the page is created, prepended to the page list
and its chunk chain CAS-pushed — but in both `ObjectPool::addPage`
implementations the counter is incremented first, before the page even
exists. -/
theorem addPage_counter_increment_order :
    (addPageOrderRawSegregatedStorage.indexOf GrowEv.freeListPush <
       addPageOrderRawSegregatedStorage.indexOf GrowEv.pageCountIncrement ∧
     addPageOrderRawSegregatedStorage.indexOf GrowEv.pageListLink <
       addPageOrderRawSegregatedStorage.indexOf GrowEv.pageCountIncrement) ∧
    addPageOrderObjectPool.indexOf GrowEv.pageCountIncrement <
      addPageOrderObjectPool.indexOf GrowEv.pageCreate := by
  decide

/-- Counterexample to claim C7 as stated: for a 5-byte, 1-aligned payload
the chunk node occupies 16 bytes — the pointer-sized `next` field is laid
out in front of the payload, not overlaid on it — whereas
`max(requestedSize, pointerSize) = 8`; the footprint also exceeds the
payload size rounded up to a pointer and to the node's alignment. -/
theorem chunk_size_not_max_counterexample :
    itemSizeof 5 1 = 16 ∧ max 5 ptrSize = 8 ∧
    itemSizeof 5 1 ≠ max 5 ptrSize ∧
    ¬ itemSizeof 5 1 ≤ alignUp (max 5 ptrSize) (itemAlign 1) := by
  decide

/-- Claim C7 (amended): a chunk node carries its forward link in a separate
pointer-sized field preceding the payload:
`sizeof(RawSegregatedStorageItem<S, A>)` equals the payload offset
`alignUp(ptrSize, A)` plus `S`, rounded up to the node alignment
`max(ptrSize, A)`, and is therefore always at least `ptrSize + S` — payload
size plus a link field, not `max(S, ptrSize)`. -/
theorem chunk_layout_separate_link (S A : Nat) (hA : 0 < A) :
    itemSizeof S A = alignUp (alignUp ptrSize A + S) (max ptrSize A) ∧
    ptrSize + S ≤ itemSizeof S A := by
  refine ⟨rfl, ?_⟩
  have h1 : ptrSize ≤ itemBodyOffset A := le_alignUp ptrSize A hA
  have h2 : itemBodyOffset A + S ≤ itemSizeof S A :=
    le_alignUp _ _ (itemAlign_pos A)
  omega

/-- Witness for the amended C7 at the 5-byte, 1-aligned payload. -/
theorem chunk_layout_separate_link_witness :
    0 < 1 ∧
    (itemSizeof 5 1 = alignUp (alignUp ptrSize 1 + 5) (max ptrSize 1) ∧
     ptrSize + 5 ≤ itemSizeof 5 1) :=
  ⟨by decide, chunk_layout_separate_link 5 1 (by decide)⟩

/-- Counterexample to claim C2 as stated: constructing the runtime-sized
`RawSegregatedStorage<1, 1>` with page size 1 — far too small for the
24-byte page header — completes normally (the constructor merely stores its
arguments; no error is raised at configuration time), and the descriptive
error surfaces only when the first `allocate` call attempts the first page
growth. -/
theorem pageSize_error_not_at_construction :
    RawSegregatedStorageRT.mkStorage 1 0 =
      { pageSize := 1, pageCount := 0, freeItems := [], pages := [],
        nextBase := 0, sysAllocs := 0 } ∧
    (1 : Nat) < CfgRT.pageSizeof ⟨1, 1⟩ ∧
    RawSegregatedStorageRT.allocate ⟨1, 1⟩ (RawSegregatedStorageRT.mkStorage 1 0) =
      some (.error "Page size must be large enough to fit at least one item") :=
  ⟨rfl, by decide, rfl⟩

/-- Claim C2 (amended): for the runtime-sized storage a too-small page size
is not rejected at construction — the constructor stores it unexamined —
and the descriptive error (`"Page size must be large enough to fit at least
one item"`, thrown by `RawSegregatedStoragePage::allocate`) is raised by
the first `allocate` call, which triggers the first page growth.  (The
compile-time-sized variant instead rejects such configurations at
definition time through `static_assert(itemCount > 0, ...)`.) -/
theorem pageSize_error_at_first_allocate (c : CfgRT) (p nb : Nat)
    (h : p < c.pageSizeof) :
    RawSegregatedStorageRT.allocate c (RawSegregatedStorageRT.mkStorage p nb) =
      some (.error "Page size must be large enough to fit at least one item") := by
  simp [RawSegregatedStorageRT.allocate, RawSegregatedStorageRT.mkStorage,
        RawSegregatedStorageRT.addPage, RawSegregatedStorageRT.pageAllocate, h]

/-- Witness for the amended C2 at page size 1. -/
theorem pageSize_error_at_first_allocate_witness :
    (1 : Nat) < CfgRT.pageSizeof ⟨1, 1⟩ ∧
    RawSegregatedStorageRT.allocate ⟨1, 1⟩ (RawSegregatedStorageRT.mkStorage 1 5) =
      some (.error "Page size must be large enough to fit at least one item") :=
  ⟨by decide, pageSize_error_at_first_allocate ⟨1, 1⟩ 1 5 (by decide)⟩

/-- The concrete scenario's configuration: a 5-byte, 1-aligned payload
(16-byte chunk node) and a 48-byte page, so each page holds exactly
`48 / 16 = 3` chunks. -/
def scenarioCfg : Cfg := ⟨5, 1, 48⟩

/-- Phase 1 of the concrete scenario: 102 `allocate` calls on a freshly
constructed pool. -/
def scenarioPhase1 : Option (List Nat × St) :=
  RawSegregatedStorage.allocN scenarioCfg 102 (RawSegregatedStorage.mkStorage 0)

/-- Phase 2: free all 102 objects in allocation order. -/
def scenarioAfterFree : Option St :=
  scenarioPhase1.map (fun r => RawSegregatedStorage.freeAll scenarioCfg r.1 r.2)

/-- Phase 3: allocate 102 objects again. -/
def scenarioPhase3 : Option St :=
  scenarioAfterFree.bind
    (fun s => (RawSegregatedStorage.allocN scenarioCfg 102 s).map Prod.snd)

/-- Phase 4: one additional (103rd) allocation. -/
def scenarioPhase4 : Option St :=
  scenarioPhase3.bind
    (fun s => (RawSegregatedStorage.allocate scenarioCfg s).map Prod.snd)

set_option maxRecDepth 100000 in
/-- Claim C1: with pages of exactly 3 chunks, 102 allocations from a fresh
pool perform exactly 34 underlying page allocations; after freeing all 102
objects, 102 further allocations perform zero additional page allocations;
the 103rd allocation then performs exactly one more. -/
theorem concrete_page_growth_scenario :
    scenarioCfg.itemCount = 3 ∧
    scenarioPhase1.map (fun r => r.2.sysAllocs) = some 34 ∧
    scenarioPhase3.map St.sysAllocs = some 34 ∧
    scenarioPhase4.map St.sysAllocs = some 35 := by
  refine ⟨rfl, ?_, ?_, ?_⟩ <;> decide

/-- Counterexample to claim C3 as stated: on a freshly constructed (empty)
pool the failed `allocate` triggers a page growth before the constructor
throws, so the available-chunk count goes from 0 to 3 — the chunk is duly
returned to the free-list, but the count after the failed call does not
equal the count before it. -/
theorem ctor_throw_available_count_counterexample :
    SegregatedStorage.availableCount (RawSegregatedStorage.mkStorage 0) = 0 ∧
    (SegregatedStorage.allocate ⟨5, 1, 48⟩ false (RawSegregatedStorage.mkStorage 0)).map
        (fun r => SegregatedStorage.availableCount r.2) = some 3 ∧
    (SegregatedStorage.allocate ⟨5, 1, 48⟩ false (RawSegregatedStorage.mkStorage 0)).map
        Prod.fst = some (.error ()) :=
  ⟨rfl, rfl, rfl⟩

/-- Claim C3 (amended): when the in-place constructor of `T` throws, the
typed `allocate` (the identical `try`/`catch` wrapper of both
`SegregatedStorage<T>::allocate` and
`SegregatedMultiStorage::allocate<T>`) returns the chunk to the free-list
before the exception propagates, so the chunk is never leaked: the
available-chunk count after the failed call equals the count before it
plus the chunks contributed by any page growth the call itself performed —
in particular, if the free-list was non-empty the pool state is exactly
what it was before the call. -/
theorem ctor_throw_chunk_reclaimed (c : Cfg) (s : St) (r : Except Unit Nat)
    (s'' : St) (h : SegregatedStorage.allocate c false s = some (r, s'')) :
    r = .error () ∧
    s''.freeItems.length =
      s.freeItems.length + c.itemCount * (s''.pageCount - s.pageCount) ∧
    (s.freeItems ≠ [] → s'' = s) := by
  unfold SegregatedStorage.allocate RawSegregatedStorage.allocate at h
  cases hf : s.freeItems with
  | cons a rest =>
    simp only [hf] at h
    simp only [Bool.false_eq_true, if_false, Option.some.injEq, Prod.mk.injEq] at h
    obtain ⟨hr, hs⟩ := h
    have hback : RawSegregatedStorage.free c (a + itemBodyOffset c.align)
        { s with freeItems := rest } = { s with freeItems := a :: rest } := by
      unfold RawSegregatedStorage.free
      simp [Nat.add_sub_cancel]
    rw [hback] at hs
    subst hs
    refine ⟨hr.symm, ?_, fun _ => ?_⟩
    · simp
    · rw [← hf]
  | nil =>
    have haddp : RawSegregatedStorage.addPage c s.pageCount s =
        { pageCount := s.pageCount + 1,
          freeItems := RawSegregatedStorage.pageChain c (alignUp s.nextBase c.pageAlign),
          pages := alignUp s.nextBase c.pageAlign :: s.pages,
          nextBase := alignUp s.nextBase c.pageAlign + c.pageSizeof,
          sysAllocs := s.sysAllocs + 1 } := by
      unfold RawSegregatedStorage.addPage
      simp [hf]
    simp only [hf, haddp] at h
    cases hg : RawSegregatedStorage.pageChain c (alignUp s.nextBase c.pageAlign) with
    | nil =>
      rw [hg] at h
      simp at h
    | cons y ys =>
      rw [hg] at h
      simp only [Bool.false_eq_true, if_false, Option.some.injEq, Prod.mk.injEq] at h
      obtain ⟨hr, hs⟩ := h
      subst hs
      refine ⟨hr.symm, ?_, fun hne => absurd rfl hne⟩
      have hlen : c.itemCount = ys.length + 1 := by
        have hpc : (RawSegregatedStorage.pageChain c
            (alignUp s.nextBase c.pageAlign)).length = c.itemCount := by
          unfold RawSegregatedStorage.pageChain
          simp
        rw [hg] at hpc
        simpa using hpc.symm
      simp [RawSegregatedStorage.free, hlen]

/-- Witness for the amended C3: a failed construction on a pool whose
free-list already holds one chunk leaves the pool exactly as it was. -/
theorem ctor_throw_chunk_reclaimed_witness :
    SegregatedStorage.allocate ⟨5, 1, 48⟩ false
        { pageCount := 1, freeItems := [8], pages := [0], nextBase := 56, sysAllocs := 1 } =
      some (.error (),
        { pageCount := 1, freeItems := [8], pages := [0], nextBase := 56, sysAllocs := 1 }) ∧
    ((.error () : Except Unit Nat) = .error () ∧
     ([8] : List Nat).length = ([8] : List Nat).length + Cfg.itemCount ⟨5, 1, 48⟩ * (1 - 1) ∧
     (([8] : List Nat) ≠ [] →
       ({ pageCount := 1, freeItems := [8], pages := [0], nextBase := 56, sysAllocs := 1 } : St) =
       { pageCount := 1, freeItems := [8], pages := [0], nextBase := 56, sysAllocs := 1 })) :=
  ⟨rfl, ctor_throw_chunk_reclaimed ⟨5, 1, 48⟩
    { pageCount := 1, freeItems := [8], pages := [0], nextBase := 56, sysAllocs := 1 }
    (.error ())
    { pageCount := 1, freeItems := [8], pages := [0], nextBase := 56, sysAllocs := 1 }
    (by rfl)⟩

/-- A lookup that succeeds still succeeds, with the same storage, after the
map is extended on the right. -/
lemma findStorage_append_left {m : List (RegKey × Nat)} {k : RegKey} {i : Nat}
    (h : SegregatedMultiStorage.findStorage m k = some i) (m' : List (RegKey × Nat)) :
    SegregatedMultiStorage.findStorage (m ++ m') k = some i := by
  induction m with
  | nil => simp [SegregatedMultiStorage.findStorage] at h
  | cons e t ih =>
    by_cases he : e.1 = k
    · simpa [SegregatedMultiStorage.findStorage, he] using h
    · rw [List.cons_append]
      rw [SegregatedMultiStorage.findStorage] at h ⊢
      rw [if_neg he] at h ⊢
      exact ih h

/-- A failed lookup means the key is absent from the map. -/
lemma findStorage_eq_none {m : List (RegKey × Nat)} {k : RegKey}
    (h : SegregatedMultiStorage.findStorage m k = none) : k ∉ m.map Prod.fst := by
  induction m with
  | nil => simp
  | cons e t ih =>
    rw [SegregatedMultiStorage.findStorage] at h
    by_cases he : e.1 = k
    · rw [if_pos he] at h
      exact absurd h (by simp)
    · rw [if_neg he] at h
      simp only [List.map_cons, List.mem_cons]
      rintro (hk | hk)
      · exact he hk.symm
      · exact ih h hk

/-- One `createStorage` section preserves every existing association. -/
lemma createStorage_preserves {m : List (RegKey × Nat)} {k : RegKey} {i : Nat}
    (h : SegregatedMultiStorage.findStorage m k = some i) (k' : RegKey) :
    SegregatedMultiStorage.findStorage (SegregatedMultiStorage.createStorage m k') k
      = some i := by
  unfold SegregatedMultiStorage.createStorage
  cases hf : SegregatedMultiStorage.findStorage m k' with
  | some j => exact h
  | none => exact findStorage_append_left h _

/-- One `createStorage` section keeps the keys duplicate-free. -/
lemma createStorage_nodup {m : List (RegKey × Nat)}
    (h : (m.map Prod.fst).Nodup) (k : RegKey) :
    ((SegregatedMultiStorage.createStorage m k).map Prod.fst).Nodup := by
  unfold SegregatedMultiStorage.createStorage
  cases hf : SegregatedMultiStorage.findStorage m k with
  | some j => exact h
  | none =>
    rw [List.map_append]
    rw [List.nodup_append]
    refine ⟨h, List.nodup_singleton _, ?_⟩
    intro x hx hx'
    simp only [List.map_cons, List.map_nil, List.mem_singleton] at hx'
    subst hx'
    exact findStorage_eq_none hf hx

/-- Any sequence of `createStorage` sections preserves existing
associations. -/
lemma foldl_createStorage_preserves {m : List (RegKey × Nat)} {k : RegKey} {i : Nat}
    (h : SegregatedMultiStorage.findStorage m k = some i) (ks : List RegKey) :
    SegregatedMultiStorage.findStorage
      (ks.foldl SegregatedMultiStorage.createStorage m) k = some i := by
  induction ks generalizing m with
  | nil => exact h
  | cons k' t ih => exact ih (createStorage_preserves h k')

/-- Any sequence of `createStorage` sections keeps the keys
duplicate-free. -/
lemma foldl_createStorage_nodup {m : List (RegKey × Nat)}
    (h : (m.map Prod.fst).Nodup) (ks : List RegKey) :
    (((ks.foldl SegregatedMultiStorage.createStorage m)).map Prod.fst).Nodup := by
  induction ks generalizing m with
  | nil => exact h
  | cons k' t ih => exact ih (createStorage_nodup h k')

/-- Claim C6: for the registry's whole lifetime at most one storage exists
per `(size, alignment)` key, and the storage associated with a key is
stable.  Every reachable registry state (an arbitrary interleaving `ks` of
the lock-protected creation sections, starting from the empty registry)
has duplicate-free keys — `emplace` inserts only when the key is still
absent, so a concurrent creation race never yields two storages for one
key — and once a key is associated with a storage, any further operations
`more` leave that association untouched. -/
theorem registry_unique_and_stable (ks more : List RegKey) (k : RegKey) (i : Nat)
    (h : SegregatedMultiStorage.findStorage (SegregatedMultiStorage.runRegistry ks) k
           = some i) :
    ((SegregatedMultiStorage.runRegistry ks).map Prod.fst).Nodup ∧
    SegregatedMultiStorage.findStorage
      (SegregatedMultiStorage.runRegistry (ks ++ more)) k = some i := by
  constructor
  · exact foldl_createStorage_nodup (by simp) ks
  · unfold SegregatedMultiStorage.runRegistry
    rw [List.foldl_append]
    exact foldl_createStorage_preserves h more

/-- Witness for C6: two creation races on the key `(8, 8)` interleaved with
another key still leave exactly one storage (index 0) for`(8, 8)`, and it
survives further operations. -/
theorem registry_unique_and_stable_witness :
    SegregatedMultiStorage.findStorage
        (SegregatedMultiStorage.runRegistry [(8, 8), (4, 4), (8, 8)]) (8, 8) = some 0 ∧
    (((SegregatedMultiStorage.runRegistry [(8, 8), (4, 4), (8, 8)]).map Prod.fst).Nodup ∧
     SegregatedMultiStorage.findStorage
       (SegregatedMultiStorage.runRegistry ([(8, 8), (4, 4), (8, 8)] ++ [(8, 8), (2, 2)]))
       (8, 8) = some 0) :=
  ⟨by decide, registry_unique_and_stable [(8, 8), (4, 4), (8, 8)] [(8, 8), (2, 2)]
    (8, 8) 0 (by decide)⟩

/-- Claim C9: every pointer returned by `allocate` is a multiple of the
configured alignment, including over-aligned configurations: with the
alignment a power of two (as `alignof` always is) and every free-list entry
an item address (a multiple of the item alignment, as the pool's own
operations maintain), the returned body pointer `item + offsetof(Item,
body)` is divisible by the alignment — whether it was popped from the
free-list or carved out of a freshly grown page, whose
`operator new(…, align_val_t(alignof(Page)))` base is aligned by the
provider.  The typed and registry layers return this same pointer after
the placement `new`. -/
theorem allocate_alignment (c : Cfg) (s : St) (k a : Nat) (s' : St)
    (hA : c.align = 2 ^ k)
    (hs : ∀ x ∈ s.freeItems, itemAlign c.align ∣ x)
    (h : RawSegregatedStorage.allocate c s = some (a, s')) :
    a % c.align = 0 := by
  have hdvdIA : c.align ∣ itemAlign c.align := by
    rw [hA]
    exact pow2_dvd_itemAlign k
  have hoff : c.align ∣ itemBodyOffset c.align := alignUp_dvd ptrSize c.align
  have hpos : 0 < c.align := by
    rw [hA]
    exact Nat.pos_pow_of_pos k (by norm_num)
  suffices hgoal : c.align ∣ a by omega
  unfold RawSegregatedStorage.allocate at h
  cases hf : s.freeItems with
  | cons x rest =>
    rw [hf] at h
    simp only [Option.some.injEq, Prod.mk.injEq] at h
    obtain ⟨ha, _⟩ := h
    subst ha
    exact Nat.dvd_add (dvd_trans hdvdIA (hs x (hf ▸ List.mem_cons_self x rest))) hoff
  | nil =>
    have haddp : RawSegregatedStorage.addPage c s.pageCount s =
        { pageCount := s.pageCount + 1,
          freeItems := RawSegregatedStorage.pageChain c (alignUp s.nextBase c.pageAlign),
          pages := alignUp s.nextBase c.pageAlign :: s.pages,
          nextBase := alignUp s.nextBase c.pageAlign + c.pageSizeof,
          sysAllocs := s.sysAllocs + 1 } := by
      unfold RawSegregatedStorage.addPage
      simp [hf]
    rw [hf, haddp] at h
    cases hg : RawSegregatedStorage.pageChain c (alignUp s.nextBase c.pageAlign) with
    | nil =>
      rw [hg] at h
      simp at h
    | cons y ys =>
      rw [hg] at h
      simp only [Option.some.injEq, Prod.mk.injEq] at h
      obtain ⟨ha, _⟩ := h
      subst ha
      have hy : itemAlign c.align ∣ y :=
        pageChain_dvd c s.nextBase y (hg ▸ List.mem_cons_self y ys)
      exact Nat.dvd_add (dvd_trans hdvdIA hy) hoff

/-- Witness for C9: a 16-byte over-aligned payload allocated out of a page
the provider based at the unaligned bump address 5 still comes back
16-byte aligned (the returned pointer is 48). -/
theorem allocate_alignment_witness :
    (Cfg.align ⟨1, 16, 64⟩ = 2 ^ 4 ∧
     RawSegregatedStorage.allocate ⟨1, 16, 64⟩ (RawSegregatedStorage.mkStorage 5) =
       some (48, { pageCount := 1, freeItems := [64], pages := [16],
                   nextBase := 96, sysAllocs := 1 })) ∧
    48 % Cfg.align ⟨1, 16, 64⟩ = 0 :=
  ⟨⟨by decide, by decide⟩,
   allocate_alignment ⟨1, 16, 64⟩ (RawSegregatedStorage.mkStorage 5) 4 48
     { pageCount := 1, freeItems := [64], pages := [16], nextBase := 96, sysAllocs := 1 }
     (by decide) (by intro x hx; simp [RawSegregatedStorage.mkStorage] at hx) (by decide)⟩

end SgsProof
